import Mathlib

/-!
Formal model of the POSIFLEX PP-700II printer driver (src/Pos_Printer.cpp).

The printer session state and the operations on it are translated from the
C++ source.  The byte channel is modelled by returning the list of bytes an
operation emits, and the advisory pacing delay computed by the per-character
write path is returned explicitly.  Numeric fields are modelled as `Nat`
(the spec's data model declares them as integers; the header file declaring
the concrete C++ field types is not among the sources).  Where a C++ value
is truncated to `uint8_t` or `uint16_t` on transmission, the model applies
the reduction modulo 256 or 65536 explicitly.  `PRINTER_FIRMWARE`-gated
encodings are modelled with an explicit boolean parameter where a claim
needs them, and the optional `DENMARK` transliteration block is treated as
compiled out (its macro is not defined anywhere in the sources).
-/

namespace PosPrinter

/-- Serial baud rate: `#define BAUDRATE 19200`. -/
def BAUDRATE : Nat := 19200

/-- Microseconds to issue one byte to the printer:
`#define BYTE_TIME (((11L * 1000000L) + (BAUDRATE / 2)) / BAUDRATE)`. -/
def byteTime : Nat := (11 * 1000000 + BAUDRATE / 2) / BAUDRATE

/-- Printer session state: the mutable members of `Pos_Printer` that the
text and bitmap paths read and update. -/
structure PState where
  column : Nat
  maxColumn : Nat
  charHeight : Nat
  lineSpacing : Nat
  prevByte : Nat
  printMode : Nat
  barcodeHeight : Nat
  dotPrintTime : Nat
  dotFeedTime : Nat
  deriving DecidableEq, Repr

/-- A state with all members zero, standing for the indeterminate member
values before `reset()` runs (C++ leaves them uninitialized). -/
def stateZero : PState :=
  { column := 0, maxColumn := 0, charHeight := 0, lineSpacing := 0,
    prevByte := 0, printMode := 0, barcodeHeight := 0,
    dotPrintTime := 0, dotFeedTime := 0 }

/-- State effect of `Pos_Printer::reset()`: `prevByte = '\n'`, `column = 0`,
`maxColumn = 32`, `charHeight = 24`, `lineSpacing = 6`,
`barcodeHeight = 50`.  Note that `printMode` is NOT touched by `reset()`. -/
def reset (s : PState) : PState :=
  { s with prevByte := 10, column := 0, maxColumn := 32,
           charHeight := 24, lineSpacing := 6, barcodeHeight := 50 }

/-- Result of one call to `Pos_Printer::write(uint8_t c)`: the bytes put on
the stream, the computed pacing delay `d` (microseconds), the updated
state, and the returned count. -/
structure WriteOut where
  out : List Nat
  delay : Nat
  state : PState
  ret : Nat
  deriving DecidableEq, Repr

/-- `Pos_Printer::write(uint8_t c)` (src/Pos_Printer.cpp lines 118-148),
with `DENMARK` not defined: if `c != 0x13` the byte is emitted, the delay
starts at `BYTE_TIME`, and on `c == '\n'` or `column == maxColumn` a settle
term is added (pure-feed formula when `prevByte == '\n'`, print-plus-feed
formula otherwise) while `column` resets to 0 and `prevByte` becomes
`'\n'`; otherwise `column` increments and `prevByte` becomes `c`.
A byte equal to `0x13` is dropped entirely. -/
def write (s : PState) (c : Nat) : WriteOut :=
  if c ≠ 0x13 then
    if c = 10 ∨ s.column = s.maxColumn then
      let settle :=
        if s.prevByte = 10 then (s.charHeight + s.lineSpacing) * s.dotFeedTime
        else s.charHeight * s.dotPrintTime + s.lineSpacing * s.dotFeedTime
      { out := [c], delay := byteTime + settle,
        state := { s with column := 0, prevByte := 10 }, ret := 1 }
    else
      { out := [c], delay := byteTime,
        state := { s with column := s.column + 1, prevByte := c }, ret := 1 }
  else
    { out := [], delay := 0, state := s, ret := 1 }

/-- `Pos_Printer::tab()`: emits a TAB byte and sets
`column = (column + 4) & 0b11111100`. -/
def tab (s : PState) : PState :=
  { s with column := (s.column + 4) &&& 0b11111100 }

/-- `Pos_Printer::setPrintMode(mask)`: OR the mask into `printMode`, then
recompute `charHeight` from the double-height bit (`1 << 4`) and
`maxColumn` from the double-width bit (`1 << 5`). -/
def setPrintMode (s : PState) (mask : Nat) : PState :=
  let pm := s.printMode ||| mask
  { s with printMode := pm,
           charHeight := if pm &&& 16 ≠ 0 then 48 else 24,
           maxColumn := if pm &&& 32 ≠ 0 then 16 else 32 }

/-- `Pos_Printer::unsetPrintMode(mask)`: clear the mask bits
(`printMode &= ~mask`, on an 8-bit field), then recompute `charHeight`
and `maxColumn` exactly as `setPrintMode` does. -/
def unsetPrintMode (s : PState) (mask : Nat) : PState :=
  let pm := s.printMode &&& (255 ^^^ mask)
  { s with printMode := pm,
           charHeight := if pm &&& 16 ≠ 0 then 48 else 24,
           maxColumn := if pm &&& 32 ≠ 0 then 16 else 32 }

/-- `Pos_Printer::doubleHeightOn()` = `setPrintMode(DOUBLE_HEIGHT_MASK)`. -/
def doubleHeightOn (s : PState) : PState := setPrintMode s 16

/-- `Pos_Printer::doubleWidthOn()` = `setPrintMode(DOUBLE_WIDTH_MASK)`. -/
def doubleWidthOn (s : PState) : PState := setPrintMode s 32

/-- `Pos_Printer::normal()`: sets `printMode = 0` and rewrites the mode
byte, WITHOUT recomputing `charHeight` or `maxColumn`. -/
def normal (s : PState) : PState := { s with printMode := 0 }

/-- C `toupper` restricted to byte values: lowercase ASCII letters are
mapped to uppercase, everything else is unchanged. -/
def toupperC (c : Nat) : Nat := if 97 ≤ c ∧ c ≤ 122 then c - 32 else c

/-- `Pos_Printer::setSize(value)`: switch on `toupper(value)` —
medium `'M'` gives size byte 0x01 with `charHeight 48` / `maxColumn 32`,
large `'L'` gives 0x11 with 48/16, anything else gives 0x00 with 24/32;
`prevByte` becomes newline.  `printMode` is NOT touched. -/
def setSize (s : PState) (value : Nat) : PState × List Nat :=
  let u := toupperC value
  let p : Nat × Nat × Nat :=
    if u = 77 then (0x01, 48, 32)
    else if u = 76 then (0x11, 48, 16)
    else (0x00, 24, 32)
  ({ s with charHeight := p.2.1, maxColumn := p.2.2, prevByte := 10 },
   [29, 33, p.1])

/-- State effect of `Pos_Printer::feed(x)` (and `feedRows`): the emitted
command aside, `prevByte = '\n'` and `column = 0`. -/
def feedState (s : PState) : PState := { s with prevByte := 10, column := 0 }

/-- Text-path operations used to state the column invariant: per-character
write, feed, and reset. -/
inductive TextOp where
  | wr (c : Nat)
  | fd (n : Nat)
  | rst

/-- Apply one text-path operation to the session state. -/
def applyTextOp (s : PState) : TextOp → PState
  | TextOp.wr c => (write s c).state
  | TextOp.fd _ => feedState s
  | TextOp.rst => reset s

/-- Apply a sequence of text-path operations, left to right. -/
def applyTextOps (s : PState) (ops : List TextOp) : PState :=
  ops.foldl applyTextOp s

/-- `Pos_Printer::underlineOn(weight)`: weights above 2 are clamped to 2,
then `ESC - weight` is emitted. -/
def underlineOn (weight : Nat) : List Nat :=
  [27, 45, if weight > 2 then 2 else weight]

/-- `Pos_Printer::setBarcodeHeight(val)`: values below 1 become 1, the
clamped value is stored in `barcodeHeight` and emitted as `GS h val`. -/
def setBarcodeHeight (s : PState) (val : Nat) : PState × List Nat :=
  let v := if val < 1 then 1 else val
  ({ s with barcodeHeight := v }, [29, 104, v])

/-- `Pos_Printer::printQRcode(text, errCorrect, moduleSize, model)`:
model outside 49..51 falls back to 50, module size outside 1..16 falls
back to 3, error correction outside 48..51 falls back to 48; then the
four `GS ( k` command blocks and the data are emitted, followed by the
`reprintQRcode` print block.  The string length is a `uint16_t`. -/
def printQRcode (text : List Nat) (errCorrect moduleSize model : Nat) :
    List Nat :=
  let mdl := if model < 49 ∨ model > 51 then 50 else model
  let ms := if moduleSize < 1 ∨ moduleSize > 16 then 3 else moduleSize
  let ec := if errCorrect < 48 ∨ errCorrect > 51 then 48 else errCorrect
  let len := text.length % 65536
  [29, 40, 107, 4] ++ [0, 49, 65, mdl] ++ [0] ++
    ([29, 40, 107] ++ [3, 0, 49, 67] ++ [ms]) ++
    ([29, 40, 107] ++ [3, 0, 49, 69] ++ [ec]) ++
    ([29, 40, 107] ++ [(len + 3) % 256, ((len + 3) / 256) % 256] ++
      [49, 80, 48] ++ text) ++
    ([29, 40, 107, 3] ++ [0, 49, 81, 48])

/-- `Pos_Printer::setLineHeight(int val)`: `if (val < 24) val = 24;`
then `lineSpacing = val - 24` and `ESC 3 val` is emitted.  The parameter
byte put on the wire is the `uint8_t` truncation of the `int` value; the
`lineSpacing` field is modelled from the spec as a nonnegative integer. -/
def setLineHeight (s : PState) (val : Int) : PState × List Nat :=
  let v := if val < 24 then 24 else val
  ({ s with lineSpacing := (v - 24).toNat }, [27, 51, (v % 256).toNat])

/-- `Pos_Printer::justify(value)`: switch on `toupper(value)`, mapping
`'L'`/`'C'`/`'R'` to positions 0/1/2 and anything else to the initial 0,
then emit `ESC a pos`. -/
def justify (value : Nat) : List Nat :=
  let pos : Nat :=
    if toupperC value = 76 then 0
    else if toupperC value = 67 then 1
    else if toupperC value = 82 then 2
    else 0
  [27, 97, pos]

/-- `Pos_Printer::sleepAfter(uint16_t seconds)`: on firmware at or above
264 the command is `ESC 8 lowByte highByte`, otherwise `ESC 8 lowByte`. -/
def sleepAfter (fwGE264 : Bool) (seconds : Nat) : List Nat :=
  let sec := seconds % 65536
  if fwGE264 then [27, 56, sec % 256, sec / 256] else [27, 56, sec % 256]

/-- `Pos_Printer::sleep()`: `sleepAfter(1)` — the comment notes that 0
means do not sleep. -/
def sleep (fwGE264 : Bool) : List Nat := sleepAfter fwGE264 1

/-- The seconds value a `sleepAfter` command byte sequence carries:
low byte plus 256 times the high byte on newer firmware, low byte only on
older firmware. -/
def sleepSecondsOf (fwGE264 : Bool) (bs : List Nat) : Nat :=
  if fwGE264 then bs.getD 2 0 + 256 * bs.getD 3 0 else bs.getD 2 0

/-- The status-request command `hasPaper()` sends: `0x10 0x04 4`. -/
def hasPaperCmd : List Nat := [0x10, 0x04, 4]

/-- The read-retry loop of `Pos_Printer::hasPaper()`: starting at poll
index `i` with the given remaining attempts, return the status (`-1` when
no byte ever became available), the number of availability checks made,
and the number of 100 ms delays taken.  `avail i` is the byte the channel
offers at the i-th check, if any. -/
def pollLoop (avail : Nat → Option Nat) : Nat → Nat → Int × Nat × Nat
  | _, 0 => (-1, 0, 0)
  | i, fuel + 1 =>
    match avail i with
    | some b => ((b : Int), 1, 0)
    | none =>
      let r := pollLoop avail (i + 1) fuel
      (r.1, r.2.1 + 1, r.2.2 + 1)

/-- `Pos_Printer::hasPaper()`: after sending the status request, poll up
to 10 times, then return `!(status & 0b00000100)` together with the number
of polls and delays taken. -/
def hasPaper (avail : Nat → Option Nat) : Bool × Nat × Nat :=
  let r := pollLoop avail 0 10
  (Int.land r.1 4 == 0, r.2.1, r.2.2)

/-- `rowBytes = (w + 7) / 8` of `Pos_Printer::printBitmap_ada`. -/
def rowBytesOf (w : Nat) : Nat := (w + 7) / 8

/-- `rowBytesClipped = (rowBytes >= 48) ? 48 : rowBytes` (384 px max). -/
def rowBytesClippedOf (rb : Nat) : Nat := if rb ≥ 48 then 48 else rb

/-- `chunkHeightLimit` of `Pos_Printer::printBitmap_ada`: 255 when the DTR
handshake is enabled; otherwise `256 / rowBytesClipped` capped at
`maxChunkHeight` and raised to at least 1. -/
def chunkHeightLimitOf (dtrEnabled : Bool) (maxChunkHeight rbc : Nat) :
    Nat :=
  if dtrEnabled then 255
  else
    let c := 256 / rbc
    if c > maxChunkHeight then maxChunkHeight
    else if c < 1 then 1
    else c

/-- The row-chunking loop of `printBitmap_ada`, fuel-based: while rows
remain, issue `min remaining limit` rows.  Fuel `h` always suffices when
`limit ≥ 1` (the C loop does not terminate when the limit is 0). -/
def chunksFuel : Nat → Nat → Nat → List Nat
  | 0, _, _ => []
  | _ + 1, _, 0 => []
  | fuel + 1, limit, r + 1 =>
    min (r + 1) limit :: chunksFuel fuel limit (r + 1 - limit)

/-- The chunk heights `printBitmap_ada` issues for image height `h` under
chunk height limit `limit`. -/
def bitmapChunks (limit h : Nat) : List Nat := chunksFuel h limit h

/-- The chunk heights `printBitmap_ada(w, h, ...)` issues, from the image
geometry and the session's handshake flag and `maxChunkHeight`. -/
def printBitmapChunks (dtrEnabled : Bool) (maxChunkHeight w h : Nat) :
    List Nat :=
  bitmapChunks
    (chunkHeightLimitOf dtrEnabled maxChunkHeight
      (rowBytesClippedOf (rowBytesOf w))) h

end PosPrinter

namespace PosPrinter

/-- C1: for every byte other than the one value the write path suppresses
(`0x13`), exactly one byte-time delay is charged; on a line feed or when
the column has reached `maxColumn` an additional settle delay is charged —
the pure-feed formula `(charHeight + lineSpacing) * dotFeedTime` when the
recorded previous character was a newline, and
`charHeight * dotPrintTime + lineSpacing * dotFeedTime` otherwise — and the
column resets to 0 with the recorded previous character becoming newline;
in all other cases the column increments by 1 and the recorded previous
character becomes the written byte. -/
theorem write_pacing_and_state (s : PState) (c : Nat) (hc : c ≠ 0x13) :
    (write s c).out = [c] ∧
    ((c = 10 ∨ s.column = s.maxColumn) →
      (write s c).delay =
        byteTime + (if s.prevByte = 10
          then (s.charHeight + s.lineSpacing) * s.dotFeedTime
          else s.charHeight * s.dotPrintTime + s.lineSpacing * s.dotFeedTime) ∧
      (write s c).state.column = 0 ∧
      (write s c).state.prevByte = 10) ∧
    (¬(c = 10 ∨ s.column = s.maxColumn) →
      (write s c).delay = byteTime ∧
      (write s c).state.column = s.column + 1 ∧
      (write s c).state.prevByte = c) := by
  by_cases h : c = 10 ∨ s.column = s.maxColumn <;>
    simp [write, hc, h]

/-- Witness for C1: writing the letter H (0x48) from the reset state. -/
theorem write_pacing_and_state_witness :
    (write (reset stateZero) 72).out = [72] :=
  (write_pacing_and_state (reset stateZero) 72 (by decide)).1

/-- C5 (code bug): the source suppresses byte `0x13` (decimal 19, DC3), not
the carriage-return character `0x0D` (decimal 13), although its comment
says it strips carriage returns.  Writing a literal carriage return from
the reset state emits the byte and advances the column, while byte `0x13`
is the one actually dropped. -/
theorem write_carriage_return_not_suppressed :
    (write (reset stateZero) 13).out = [13] ∧
    (write (reset stateZero) 13).state.column = 1 ∧
    (write (reset stateZero) 13).state.prevByte = 13 ∧
    (write (reset stateZero) 0x13).out = [] ∧
    (write (reset stateZero) 0x13).state = reset stateZero := by
  decide

/-- One text-path operation (write, feed, reset) preserves
`column ≤ maxColumn`. -/
lemma applyTextOp_column_le (s : PState) (h : s.column ≤ s.maxColumn)
    (op : TextOp) :
    (applyTextOp s op).column ≤ (applyTextOp s op).maxColumn := by
  cases op with
  | wr c =>
    by_cases h13 : c = 0x13
    · simpa [applyTextOp, write, h13] using h
    · by_cases hw : c = 10 ∨ s.column = s.maxColumn
      · simp [applyTextOp, write, h13, hw]
      · have hne : s.column ≠ s.maxColumn := fun he => hw (Or.inr he)
        have hlt : s.column < s.maxColumn := Nat.lt_of_le_of_ne h hne
        simp [applyTextOp, write, h13, hw]
        omega
  | fd n => simp [applyTextOp, feedState]
  | rst => simp [applyTextOp, reset]

/-- C3 (amended): starting from the reset state, `0 ≤ column ≤ maxColumn`
holds after every sequence of per-character writes, feeds, and resets
(the lower bound is inherent in the `Nat` model).  The original claim over
all public operations fails: see the tab counterexample. -/
theorem column_le_maxColumn_after_text_ops (s : PState)
    (ops : List TextOp) :
    (applyTextOps (reset s) ops).column ≤
      (applyTextOps (reset s) ops).maxColumn := by
  have main : ∀ (l : List TextOp) (t : PState), t.column ≤ t.maxColumn →
      (applyTextOps t l).column ≤ (applyTextOps t l).maxColumn := by
    intro l
    induction l with
    | nil => intro t ht; simpa [applyTextOps] using ht
    | cons op rest ih =>
      intro t ht
      have step := applyTextOp_column_le t ht op
      simpa [applyTextOps, List.foldl] using ih (applyTextOp t op) step
  exact main ops (reset s) (by simp [reset])

/-- C3 counterexample: nine consecutive `tab()` calls from the reset state
drive the column to 36, beyond `maxColumn = 32`, so the invariant
`column ≤ maxColumn` does not hold after every public operation. -/
theorem tab_exceeds_maxColumn :
    (tab (tab (tab (tab (tab (tab (tab (tab (tab
      (reset stateZero)))))))))).maxColumn <
    (tab (tab (tab (tab (tab (tab (tab (tab (tab
      (reset stateZero)))))))))).column := by
  decide

/-- The recomputed height/width fields match the mode bits. -/
lemma mode_mapping_of (pm : Nat) :
    ((if pm &&& 16 ≠ 0 then 48 else 24 : Nat) = 48 ↔ pm &&& 16 ≠ 0) ∧
    ((if pm &&& 16 ≠ 0 then 48 else 24 : Nat) = 24 ↔ pm &&& 16 = 0) ∧
    ((if pm &&& 32 ≠ 0 then 16 else 32 : Nat) = 16 ↔ pm &&& 32 ≠ 0) ∧
    ((if pm &&& 32 ≠ 0 then 16 else 32 : Nat) = 32 ↔ pm &&& 32 = 0) := by
  by_cases h16 : pm &&& 16 = 0 <;> by_cases h32 : pm &&& 32 = 0 <;>
    simp [h16, h32]

/-- C4 (amended): after `setPrintMode`/`unsetPrintMode` (hence after every
mode toggle), `charHeight = 48` iff the double-height bit is set (else 24)
and `maxColumn = 16` iff the double-width bit is set (else 32), and
re-applying the same set or unset leaves the state unchanged.  The original
claim fails for `normal()`, `reset()` and `setSize()`, which update only
one side of the correspondence: see the counterexample. -/
theorem setPrintMode_mapping_and_idempotence (s : PState) (m : Nat) :
    ((setPrintMode s m).charHeight = 48 ↔
      (setPrintMode s m).printMode &&& 16 ≠ 0) ∧
    ((setPrintMode s m).charHeight = 24 ↔
      (setPrintMode s m).printMode &&& 16 = 0) ∧
    ((setPrintMode s m).maxColumn = 16 ↔
      (setPrintMode s m).printMode &&& 32 ≠ 0) ∧
    ((setPrintMode s m).maxColumn = 32 ↔
      (setPrintMode s m).printMode &&& 32 = 0) ∧
    ((unsetPrintMode s m).charHeight = 48 ↔
      (unsetPrintMode s m).printMode &&& 16 ≠ 0) ∧
    ((unsetPrintMode s m).charHeight = 24 ↔
      (unsetPrintMode s m).printMode &&& 16 = 0) ∧
    ((unsetPrintMode s m).maxColumn = 16 ↔
      (unsetPrintMode s m).printMode &&& 32 ≠ 0) ∧
    ((unsetPrintMode s m).maxColumn = 32 ↔
      (unsetPrintMode s m).printMode &&& 32 = 0) ∧
    setPrintMode (setPrintMode s m) m = setPrintMode s m ∧
    unsetPrintMode (unsetPrintMode s m) m = unsetPrintMode s m := by
  have hor : (s.printMode ||| m) ||| m = s.printMode ||| m := by
    rw [Nat.or_assoc, Nat.or_self]
  have hand : (s.printMode &&& (255 ^^^ m)) &&& (255 ^^^ m) =
      s.printMode &&& (255 ^^^ m) := by
    rw [Nat.and_assoc, Nat.and_self]
  refine ⟨(mode_mapping_of _).1, (mode_mapping_of _).2.1,
    (mode_mapping_of _).2.2.1, (mode_mapping_of _).2.2.2,
    (mode_mapping_of _).1, (mode_mapping_of _).2.1,
    (mode_mapping_of _).2.2.1, (mode_mapping_of _).2.2.2, ?_, ?_⟩
  · simp [setPrintMode, hor]
  · simp [unsetPrintMode, hand]

/-- C4 counterexample: from the reset state, `doubleHeightOn()` then
`normal()` leaves `charHeight = 48` although the double-height bit is
clear, so the height/width consistency is not preserved by `normal()`. -/
theorem normal_breaks_mode_consistency :
    (normal (doubleHeightOn (reset stateZero))).printMode &&& 16 = 0 ∧
    (normal (doubleHeightOn (reset stateZero))).charHeight = 48 := by
  decide

/-- Truncating division rounds up once the dividend is shifted by the
divisor minus one: `(a + b - 1) / b` is the ceiling of `a / b`. -/
lemma ceil_div_cast (a b : Nat) (hb : 0 < b) :
    (⌈(a : ℚ) / (b : ℚ)⌉ : ℤ) = ((a + b - 1) / b : Nat) := by
  have hbq : (0 : ℚ) < (b : ℚ) := by exact_mod_cast hb
  obtain ⟨t, ht⟩ : ∃ t, t = b * ((a + b - 1) / b) := ⟨_, rfl⟩
  have hdm : t + (a + b - 1) % b = a + b - 1 := by
    rw [ht]; exact Nat.div_add_mod _ _
  have hm : (a + b - 1) % b < b := Nat.mod_lt _ hb
  have h1 : a ≤ t := by omega
  have h2 : t < a + b := by omega
  have htq : (t : ℚ) = (b : ℚ) * (((a + b - 1) / b : Nat) : ℚ) := by
    exact_mod_cast ht
  have h1q : (a : ℚ) ≤ (t : ℚ) := by exact_mod_cast h1
  have h2q : (t : ℚ) < (a : ℚ) + (b : ℚ) := by exact_mod_cast h2
  rw [Int.ceil_eq_iff]
  simp only [Int.cast_natCast]
  constructor
  · rw [sub_lt_iff_lt_add, div_add' _ _ _ (ne_of_gt hbq), lt_div_iff₀ hbq]
    nlinarith [htq, h2q]
  · rw [div_le_iff₀ hbq]
    nlinarith [htq, h1q]

/-- The chunk heights of the row loop sum to the remaining height. -/
lemma chunksFuel_sum (limit : Nat) (hl : 1 ≤ limit) :
    ∀ fuel r, r ≤ fuel → (chunksFuel fuel limit r).sum = r := by
  intro fuel
  induction fuel with
  | zero =>
    intro r hr
    have hz : r = 0 := Nat.le_zero.mp hr
    subst hz
    rfl
  | succ f ih =>
    intro r hr
    match r with
    | 0 => rfl
    | r + 1 =>
      have h1 : r + 1 - limit ≤ f := by omega
      simp only [chunksFuel, List.sum_cons, ih _ h1]
      omega

/-- No chunk height issued by the row loop exceeds the limit. -/
lemma chunksFuel_le (limit : Nat) :
    ∀ fuel r c, c ∈ chunksFuel fuel limit r → c ≤ limit := by
  intro fuel
  induction fuel with
  | zero => intro r c hc; simp [chunksFuel] at hc
  | succ f ih =>
    intro r c hc
    match r with
    | 0 => simp [chunksFuel] at hc
    | r + 1 =>
      simp only [chunksFuel, List.mem_cons] at hc
      rcases hc with hc | hc
      · omega
      · exact ih _ _ hc

/-- The number of chunks issued by the row loop is the rounded-up quotient
of the remaining height by the limit. -/
lemma chunksFuel_length (limit : Nat) (hl : 1 ≤ limit) :
    ∀ fuel r, r ≤ fuel →
      (chunksFuel fuel limit r).length = (r + limit - 1) / limit := by
  intro fuel
  induction fuel with
  | zero =>
    intro r hr
    have hz : r = 0 := Nat.le_zero.mp hr
    subst hz
    simp [chunksFuel]
    rw [Nat.div_eq_of_lt (by omega)]
  | succ f ih =>
    intro r hr
    match r with
    | 0 =>
      simp [chunksFuel]
      rw [Nat.div_eq_of_lt (by omega)]
    | r + 1 =>
      have h1 : r + 1 - limit ≤ f := by omega
      simp only [chunksFuel, List.length_cons, ih _ h1]
      have hr1 : r + 1 + limit - 1 = r + limit := by omega
      rw [hr1, Nat.add_div_right _ (by omega)]
      rcases Nat.le_total limit (r + 1) with hc | hc
      · have he : r + 1 - limit + limit - 1 = r := by omega
        rw [he]
      · have he : r + 1 - limit = 0 := by omega
        rw [he]
        have hz : 0 + limit - 1 = limit - 1 := by omega
        rw [hz, Nat.div_eq_of_lt (by omega), Nat.div_eq_of_lt (by omega)]

/-- C2 (amended): for width and height at least 1 and a positive
`maxChunkHeight`, the row byte width is `ceil(w/8)`, the clipped row width
is `min(ceil(w/8), 48)`, the chunk height limit is 255 with the DTR
handshake and otherwise `floor(256 / clippedRowBytes)` clamped to
`[1, maxChunkHeight]`, the chunk heights sum to exactly `h`, no chunk
exceeds the chunk height limit, and the number of chunks is
`ceil(h / chunkHeightLimit)`.  The original bound
`min(maxChunkHeight, 255)` on individual chunks fails: with DTR enabled
the limit is 255 regardless of `maxChunkHeight` (see the
counterexample). -/
theorem printBitmap_chunk_geometry (w h maxChunkHeight : Nat)
    (dtrEnabled : Bool) (hw : 1 ≤ w) (_hh : 1 ≤ h)
    (hm : 1 ≤ maxChunkHeight) :
    (rowBytesOf w : ℤ) = ⌈(w : ℚ) / 8⌉ ∧
    rowBytesClippedOf (rowBytesOf w) = min (rowBytesOf w) 48 ∧
    chunkHeightLimitOf dtrEnabled maxChunkHeight
        (rowBytesClippedOf (rowBytesOf w)) =
      (if dtrEnabled then 255
       else max 1 (min (256 / rowBytesClippedOf (rowBytesOf w))
         maxChunkHeight)) ∧
    (printBitmapChunks dtrEnabled maxChunkHeight w h).sum = h ∧
    (∀ c ∈ printBitmapChunks dtrEnabled maxChunkHeight w h,
      c ≤ chunkHeightLimitOf dtrEnabled maxChunkHeight
        (rowBytesClippedOf (rowBytesOf w))) ∧
    ((printBitmapChunks dtrEnabled maxChunkHeight w h).length : ℤ) =
      ⌈(h : ℚ) / (chunkHeightLimitOf dtrEnabled maxChunkHeight
        (rowBytesClippedOf (rowBytesOf w)) : ℚ)⌉ := by
  have hrb : 1 ≤ rowBytesOf w := by unfold rowBytesOf; omega
  have hrbc1 : 1 ≤ rowBytesClippedOf (rowBytesOf w) := by
    unfold rowBytesClippedOf; split <;> omega
  have hrbc48 : rowBytesClippedOf (rowBytesOf w) ≤ 48 := by
    unfold rowBytesClippedOf; split <;> omega
  have hcdiv : 1 ≤ 256 / rowBytesClippedOf (rowBytesOf w) :=
    (Nat.one_le_div_iff (by omega)).mpr (by omega)
  have hlim1 : 1 ≤ chunkHeightLimitOf dtrEnabled maxChunkHeight
      (rowBytesClippedOf (rowBytesOf w)) := by
    cases dtrEnabled <;> simp only [chunkHeightLimitOf] <;>
      split_ifs <;> omega
  refine ⟨?_, ?_, ?_, ?_, ?_, ?_⟩
  · have h8 := ceil_div_cast w 8 (by norm_num)
    rw [show w + 8 - 1 = w + 7 from by omega] at h8
    simp only [Nat.cast_ofNat] at h8
    exact h8.symm
  · unfold rowBytesClippedOf
    rw [Nat.min_def]
    split_ifs <;> omega
  · cases dtrEnabled
    · simp only [chunkHeightLimitOf, Bool.false_eq_true, if_false]
      split_ifs <;> omega
    · simp [chunkHeightLimitOf]
  · exact chunksFuel_sum _ hlim1 h h le_rfl
  · intro c hc
    exact chunksFuel_le _ h h c hc
  · unfold printBitmapChunks bitmapChunks
    rw [chunksFuel_length _ hlim1 h h le_rfl]
    exact (ceil_div_cast h _ (by omega)).symm

/-- Witness for C2: the spec's own scenario — a 384-pixel-wide, 16-row
bitmap with `maxChunkHeight = 255` and no handshake is issued as chunks
`[5, 5, 5, 1]` summing to 16. -/
theorem printBitmap_chunk_geometry_witness :
    printBitmapChunks false 255 384 16 = [5, 5, 5, 1] ∧
    (printBitmapChunks false 255 384 16).sum = 16 :=
  ⟨by decide,
   (printBitmap_chunk_geometry 384 16 255 false (by decide) (by decide)
     (by decide)).2.2.2.1⟩

/-- C2 counterexample: with the DTR handshake enabled and
`maxChunkHeight = 1`, an 8-pixel-wide, 2-row bitmap is issued as a single
chunk of 2 rows, exceeding `min(maxChunkHeight, 255) = 1`. -/
theorem dtr_chunk_exceeds_maxChunkHeight :
    ∃ c ∈ printBitmapChunks true 1 8 2, min 1 255 < c := by
  decide

/-- C6: weights above 2 underline exactly like weight 2, barcode height 0
behaves exactly like barcode height 1 in both emitted bytes and state, and
any error-correction argument outside 48..51 makes the QR-code path emit
the same bytes as level 48; all silently, with no error result. -/
theorem clamped_parameters_silent :
    (∀ weight, 2 < weight → underlineOn weight = underlineOn 2) ∧
    (∀ s : PState, setBarcodeHeight s 0 = setBarcodeHeight s 1) ∧
    (∀ (text : List Nat) (ms mdl e : Nat), e < 48 ∨ 51 < e →
      printQRcode text e ms mdl = printQRcode text 48 ms mdl) := by
  refine ⟨?_, ?_, ?_⟩
  · intro w hw
    simp [underlineOn, hw]
  · intro s
    simp [setBarcodeHeight]
  · intro text ms mdl e he
    have h1 : (if e < 48 ∨ e > 51 then 48 else e) = 48 := if_pos he
    have h2 : (if 48 < 48 ∨ 48 > 51 then 48 else 48) = 48 := by norm_num
    simp only [printQRcode, h1, h2]

/-- Witness for C6: underline weight 7 equals weight 2, barcode height 0
equals height 1, and QR error-correction 99 equals 48. -/
theorem clamped_parameters_silent_witness :
    underlineOn 7 = underlineOn 2 ∧
    setBarcodeHeight stateZero 0 = setBarcodeHeight stateZero 1 ∧
    printQRcode [65] 99 3 50 = printQRcode [65] 48 3 50 :=
  ⟨clamped_parameters_silent.1 7 (by decide),
   clamped_parameters_silent.2.1 stateZero,
   clamped_parameters_silent.2.2 [65] 3 50 99 (by decide)⟩

/-- C7 (amended): `setLineHeight` clamps only from below — arguments below
24 behave exactly like 24, in-range arguments 24..255 are forwarded
verbatim with `lineSpacing = value - 24`, but arguments above 255 are NOT
clamped to 255: the forwarded byte is the value reduced modulo 256 and
`lineSpacing` is still the unclamped value minus 24 (see the
counterexample). -/
theorem setLineHeight_lower_clamp_only (s : PState) (v : Int) :
    (v < 24 → setLineHeight s v = setLineHeight s 24) ∧
    (24 ≤ v → v ≤ 255 →
      (setLineHeight s v).2 = [27, 51, v.toNat] ∧
      (setLineHeight s v).1.lineSpacing = (v - 24).toNat) ∧
    (255 < v →
      (setLineHeight s v).2 = [27, 51, (v % 256).toNat] ∧
      (setLineHeight s v).1.lineSpacing = (v - 24).toNat) := by
  refine ⟨?_, ?_, ?_⟩
  · intro hv
    simp [setLineHeight, hv]
  · intro hv1 hv2
    have hnl : ¬(v < 24) := by omega
    have hmod : v % 256 = v := Int.emod_eq_of_lt (by omega) (by omega)
    simp [setLineHeight, hnl, hmod]
  · intro hv
    have hnl : ¬(v < 24) := by omega
    simp [setLineHeight, hnl]

/-- Witness for C7: an argument below the minimum behaves like 24, and an
in-range argument sets `lineSpacing` to the value minus 24. -/
theorem setLineHeight_lower_clamp_only_witness :
    setLineHeight stateZero 20 = setLineHeight stateZero 24 ∧
    (setLineHeight stateZero 30).1.lineSpacing = Int.toNat (30 - 24) :=
  ⟨(setLineHeight_lower_clamp_only stateZero 20).1 (by decide),
   ((setLineHeight_lower_clamp_only stateZero 30).2.1 (by decide)
     (by decide)).2⟩

/-- C7 counterexample: `setLineHeight(300)` transmits parameter byte 44
(300 mod 256), not the claimed clamp to 255, and sets `lineSpacing` to
276, not 231. -/
theorem setLineHeight_no_upper_clamp :
    (setLineHeight stateZero 300).2 = [27, 51, 44] ∧
    (setLineHeight stateZero 300).2 ≠ [27, 51, 255] ∧
    (setLineHeight stateZero 300).1.lineSpacing = 276 ∧
    (setLineHeight stateZero 300).1.lineSpacing ≠ 231 := by
  decide

/-- C9: `sleep()` is exactly `sleepAfter(1)` on either firmware encoding,
so the seconds value carried by the emitted sleep command is 1, never the
reserved 0. -/
theorem sleep_transmits_nonzero_seconds (fwGE264 : Bool) :
    sleep fwGE264 = sleepAfter fwGE264 1 ∧
    sleepSecondsOf fwGE264 (sleep fwGE264) = 1 ∧
    sleepSecondsOf fwGE264 (sleep fwGE264) ≠ 0 := by
  cases fwGE264 <;> exact ⟨rfl, rfl, by decide⟩

/-- C10: any justification argument whose uppercase form is not L, C or R
emits the left-justification command, identical to `justify('L')`. -/
theorem justify_defaults_to_left (c : Nat)
    (hL : toupperC c ≠ 76) (hC : toupperC c ≠ 67) (hR : toupperC c ≠ 82) :
    justify c = justify 76 := by
  have h76 : justify 76 = [27, 97, 0] := by decide
  rw [h76]
  simp [justify, hL, hC, hR]

/-- Witness for C10: `justify('X')` equals `justify('L')`. -/
theorem justify_defaults_to_left_witness :
    justify 88 = justify 76 :=
  justify_defaults_to_left 88 (by decide) (by decide) (by decide)

/-- When no byte becomes available during the remaining attempts, the
retry loop ends with status -1 after one poll and one delay per attempt. -/
lemma pollLoop_all_none (avail : Nat → Option Nat) :
    ∀ fuel i, (∀ j, j < fuel → avail (i + j) = none) →
      pollLoop avail i fuel = (-1, fuel, fuel) := by
  intro fuel
  induction fuel with
  | zero => intro i _; rfl
  | succ f ih =>
    intro i h
    have h0 : avail i = none := by simpa using h 0 (Nat.succ_pos f)
    have hr := ih (i + 1) (fun j hj => by
      rw [show i + 1 + j = i + (j + 1) from by omega]
      exact h (j + 1) (by omega))
    simp [pollLoop, h0, hr]

/-- The retry loop returns the first byte the channel makes available
within the remaining attempts. -/
lemma pollLoop_first_byte (avail : Nat → Option Nat) :
    ∀ fuel k i b, k < fuel → (∀ j, j < k → avail (i + j) = none) →
      avail (i + k) = some b → (pollLoop avail i fuel).1 = (b : Int) := by
  intro fuel
  induction fuel with
  | zero => intro k i b hk; omega
  | succ f ih =>
    intro k i b hk hnone hsome
    match k with
    | 0 =>
      have hs : avail i = some b := by simpa using hsome
      simp [pollLoop, hs]
    | k + 1 =>
      have h0 : avail i = none := by simpa using hnone 0 (by omega)
      have hr := ih k (i + 1) b (by omega)
        (fun j hj => by
          rw [show i + 1 + j = i + (j + 1) from by omega]
          exact hnone (j + 1) (by omega))
        (by rw [show i + 1 + k = i + (k + 1) from by omega]; exact hsome)
      simp [pollLoop, h0, hr]

/-- C8: `hasPaper()` sends the status request `0x10 0x04 0x04`, then polls
the channel up to exactly 10 times with a 100 ms delay after each failed
check; it reports paper present exactly when the first byte that arrives
within the window has bit `0b00000100` clear, and when no byte ever
arrives it reports no paper after 10 polls and 10 delays — the same
encoding as a genuine no-paper status. -/
theorem hasPaper_poll_behavior :
    hasPaperCmd = [16, 4, 4] ∧
    (∀ avail : Nat → Option Nat, (∀ i, i < 10 → avail i = none) →
      hasPaper avail = (false, 10, 10)) ∧
    (∀ (avail : Nat → Option Nat) (i b : Nat), i < 10 →
      (∀ j, j < i → avail j = none) → avail i = some b →
      ((hasPaper avail).1 = true ↔ b &&& 4 = 0)) := by
  refine ⟨rfl, ?_, ?_⟩
  · intro avail h
    have hl := pollLoop_all_none avail 10 0 (fun j hj => by
      simpa using h j hj)
    simp only [hasPaper, hl]
    have h1 : Int.land (-1) 4 = ((Nat.ldiff 4 0 : Nat) : Int) := rfl
    have h2 : Nat.ldiff 4 0 = 4 := by simp [Nat.ldiff, Nat.bitwise]
    rw [h1, h2]
    decide
  · intro avail i b hi hnone hsome
    have hl := pollLoop_first_byte avail 10 i 0 b hi
      (fun j hj => by simpa using hnone j hj) (by simpa using hsome)
    have hland : Int.land (b : Int) 4 = ((b &&& 4 : Nat) : Int) := rfl
    simp [hasPaper, hl, hland]

/-- Witness for C8: a channel that never produces a byte makes
`hasPaper()` report no paper after exactly 10 polls and 10 delays. -/
theorem hasPaper_poll_behavior_witness :
    hasPaper (fun _ => none) = (false, 10, 10) :=
  hasPaper_poll_behavior.2.1 (fun _ => none) (fun _ _ => rfl)

end PosPrinter
